import Mathlib

/-!
Shallow embedding of the emotional-chat server core
(`src/server/ai-providers.ts`, `src/server/routes.ts`, `src/server/storage.ts`,
`src/client/src/hooks/useEmotionBuffer.ts`).

Modelling conventions:
* JavaScript numbers are embedded as `ℚ` (emotion channel values, confidence)
  or `ℤ` (millisecond timestamps); `Math.floor` of an integer quotient is
  `Int.fdiv`, `Math.round x` is `⌊x + 1/2⌋`.
* A thrown exception is an `Except.error` / `Option.none` value.
* `Object.entries` of an `EmotionData` object lists the seven channels in the
  insertion order of the source literals: happy, sad, angry, surprised,
  fearful, disgusted, neutral.
-/

/-- Seven-channel emotion vector, `EmotionData` of `shared/schema.ts`. -/
structure EmotionData where
  happy : ℚ
  sad : ℚ
  angry : ℚ
  surprised : ℚ
  fearful : ℚ
  disgusted : ℚ
  neutral : ℚ
deriving DecidableEq

/-- The pairs `Object.entries` yields for an `EmotionData` object, in the
canonical key order of the source literals. -/
def EmotionData.entries (e : EmotionData) : List (String × ℚ) :=
  [("happy", e.happy), ("sad", e.sad), ("angry", e.angry), ("surprised", e.surprised),
   ("fearful", e.fearful), ("disgusted", e.disgusted), ("neutral", e.neutral)]

/-- Helper `createDefaultEmotionContext` of `src/server/ai-providers.ts`:
all channels 0 except `neutral = 100`. -/
def createDefaultEmotionContext : EmotionData :=
  { happy := 0, sad := 0, angry := 0, surprised := 0, fearful := 0,
    disgusted := 0, neutral := 100 }

/-- The all-zero accumulator `avgEmotions` / `emotionTotals` starts from. -/
def zeroEmotion : EmotionData :=
  { happy := 0, sad := 0, angry := 0, surprised := 0, fearful := 0,
    disgusted := 0, neutral := 0 }

/-- Channel-wise addition (the `forEach` accumulation loops of
`useEmotionBuffer.ts` and the stats endpoint of `routes.ts`). -/
def EmotionData.add (a b : EmotionData) : EmotionData :=
  { happy := a.happy + b.happy, sad := a.sad + b.sad, angry := a.angry + b.angry,
    surprised := a.surprised + b.surprised, fearful := a.fearful + b.fearful,
    disgusted := a.disgusted + b.disgusted, neutral := a.neutral + b.neutral }

/-- Channel-wise division by a count (the averaging loop of
`getAverageEmotions`). -/
def EmotionData.divBy (a : EmotionData) (n : ℚ) : EmotionData :=
  { happy := a.happy / n, sad := a.sad / n, angry := a.angry / n,
    surprised := a.surprised / n, fearful := a.fearful / n,
    disgusted := a.disgusted / n, neutral := a.neutral / n }

/-- One step of the dominant-emotion reduction
`(a, b) => a[1] > b[1] ? a : b` used throughout the source. -/
def reduceStep (a b : String × ℚ) : String × ℚ :=
  if a.2 > b.2 then a else b

/-- `Array.prototype.reduce` with no initial value applied to `reduceStep`:
it throws on an empty array, modelled as `none`. -/
def reduceDominant : List (String × ℚ) → Option (String × ℚ)
  | [] => none
  | h :: t => some (t.foldl reduceStep h)

/-- Dominant channel of a full seven-channel vector,
`Object.entries(emotionContext).reduce((a, b) => a[1] > b[1] ? a : b)`.
The entry list of an `EmotionData` is never empty, so the reduction never
throws; the first match arm is unreachable. -/
def dominantEntry (e : EmotionData) : String × ℚ :=
  match e.entries with
  | [] => ("neutral", 0)
  | h :: t => t.foldl reduceStep h

/-- A raw `emotionContext` value as received: `none` models `null`,
`undefined` or a non-object (where `Object.entries` throws), `some l` an
object whose `Object.entries` are `l`. -/
def EmotionInput : Type := Option (List (String × ℚ))

/-- The guard every descriptor of `src/server/ai-providers.ts` runs before
reducing: a missing or malformed context is replaced by
`createDefaultEmotionContext()`, and if the entry list is empty,
`['neutral', 100]` is pushed. -/
def normalizedEntries (input : EmotionInput) : List (String × ℚ) :=
  let es : List (String × ℚ) :=
    match input with
    | none => createDefaultEmotionContext.entries
    | some l => l
  if es.isEmpty then [("neutral", 100)] else es

/-- Dominant-channel step of an `ai-providers.ts` descriptor: normalize,
then reduce. -/
def providerDominant (input : EmotionInput) : Option (String × ℚ) :=
  reduceDominant (normalizedEntries input)

/-- Dominant-channel step of `generateEmpatheticResponse` in
`src/server/routes.ts`: `Object.entries(emotionContext).reduce(...)` with no
guard, so a missing context (`Object.entries` throws) or an empty entry list
(`reduce` of an empty array throws) fails. -/
def routesDominant (input : EmotionInput) : Option (String × ℚ) :=
  match input with
  | none => none
  | some l => reduceDominant l

/- Helper lemmas on the dominant-channel reduction. -/

theorem reduceStep_snd (a b : String × ℚ) : (reduceStep a b).2 = max a.2 b.2 := by
  unfold reduceStep
  split <;> rename_i h
  · exact (max_eq_left (le_of_lt h)).symm
  · exact (max_eq_right (le_of_not_lt h)).symm

theorem reduceStep_mem (a b : String × ℚ) : reduceStep a b = a ∨ reduceStep a b = b := by
  unfold reduceStep
  split
  · exact Or.inl rfl
  · exact Or.inr rfl

theorem foldl_reduceStep_mem (l : List (String × ℚ)) :
    ∀ a : String × ℚ, l.foldl reduceStep a ∈ a :: l := by
  induction l with
  | nil => intro a; simp
  | cons b t ih =>
    intro a
    have h := ih (reduceStep a b)
    rcases reduceStep_mem a b with hs | hs <;>
      simp only [List.foldl_cons] <;> rw [hs] at h ⊢ <;>
      simp only [List.mem_cons] at h ⊢ <;> tauto

theorem foldl_reduceStep_le (l : List (String × ℚ)) :
    ∀ a : String × ℚ, ∀ p ∈ a :: l, p.2 ≤ (l.foldl reduceStep a).2 := by
  induction l with
  | nil =>
    intro a p hp
    simp only [List.mem_cons, List.not_mem_nil, or_false] at hp
    rw [hp]
    exact le_refl _
  | cons b t ih =>
    intro a p hp
    simp only [List.mem_cons] at hp
    have hstep : a.2 ≤ (reduceStep a b).2 ∧ b.2 ≤ (reduceStep a b).2 := by
      rw [reduceStep_snd]; exact ⟨le_max_left _ _, le_max_right _ _⟩
    simp only [List.foldl_cons]
    rcases hp with hp1 | hp1 | hp1
    · rw [hp1]
      exact le_trans hstep.1 (ih (reduceStep a b) _ (List.mem_cons_self _ _))
    · rw [hp1]
      exact le_trans hstep.2 (ih (reduceStep a b) _ (List.mem_cons_self _ _))
    · exact ih (reduceStep a b) p (List.mem_cons_of_mem _ hp1)

theorem foldl_reduceStep_lastMax (l : List (String × ℚ)) :
    ∀ a : String × ℚ,
      ((a :: l).filter (fun p => (l.foldl reduceStep a).2 ≤ p.2)).getLast?
        = some (l.foldl reduceStep a) := by
  induction l with
  | nil =>
    intro a
    simp [List.filter_cons]
  | cons b t ih =>
    intro a
    simp only [List.foldl_cons]
    have ihs := ih (reduceStep a b)
    have hle := foldl_reduceStep_le t (reduceStep a b)
    by_cases hab : a.2 > b.2
    · -- the step keeps `a`; `b` is strictly below the maximum and is filtered out
      have hstep : reduceStep a b = a := by unfold reduceStep; simp [hab]
      simp only [hstep] at ihs hle ⊢
      have ha2 : a.2 ≤ (t.foldl reduceStep a).2 :=
        hle a (List.mem_cons_self _ _)
      have hb2 : ¬ ((t.foldl reduceStep a).2 ≤ b.2) := by
        intro hcon
        exact absurd (le_trans ha2 hcon) (not_le_of_lt hab)
      have hfilb : List.filter (fun p => decide ((t.foldl reduceStep a).2 ≤ p.2)) (b :: t)
          = List.filter (fun p => decide ((t.foldl reduceStep a).2 ≤ p.2)) t := by
        rw [List.filter_cons, if_neg (by simpa using hb2)]
      rw [List.filter_cons, hfilb]
      rw [List.filter_cons] at ihs
      exact ihs
    · -- the step replaces the running best with `b` (ties included)
      have hstep : reduceStep a b = b := by unfold reduceStep; simp [hab]
      simp only [hstep] at ihs hle ⊢
      have hb2 : b.2 ≤ (t.foldl reduceStep b).2 :=
        hle b (List.mem_cons_self _ _)
      by_cases hkeep : (t.foldl reduceStep b).2 ≤ a.2
      · -- `a` survives the filter, but the maximal entry `b` behind it does too
        have hbkeep : (t.foldl reduceStep b).2 ≤ b.2 :=
          le_trans hkeep (le_of_not_lt hab)
        rw [List.filter_cons, if_pos (by simpa using hbkeep)] at ihs
        rw [List.filter_cons, if_pos (by simpa using hkeep),
          List.filter_cons, if_pos (by simpa using hbkeep),
          List.getLast?_cons_cons]
        exact ihs
      · rw [List.filter_cons, if_neg (by simpa using hkeep)]
        exact ihs

theorem entries_eq_cons (e : EmotionData) :
    e.entries = ("happy", e.happy) ::
      [("sad", e.sad), ("angry", e.angry), ("surprised", e.surprised),
       ("fearful", e.fearful), ("disgusted", e.disgusted), ("neutral", e.neutral)] := rfl

theorem dominantEntry_eq_foldl (e : EmotionData) :
    dominantEntry e =
      [("sad", e.sad), ("angry", e.angry), ("surprised", e.surprised),
       ("fearful", e.fearful), ("disgusted", e.disgusted),
       ("neutral", e.neutral)].foldl reduceStep ("happy", e.happy) := rfl

theorem reduceDominant_entries (e : EmotionData) :
    reduceDominant e.entries = some (dominantEntry e) := rfl

/-- Vector of the tie-break scenario: `happy` and `sad` share the maximal
value 50, every other channel is 0. -/
def tieVector : EmotionData :=
  { happy := 50, sad := 50, angry := 0, surprised := 0, fearful := 0,
    disgusted := 0, neutral := 0 }

/-- C3 (corrected): the reduction keeps the running best only when it is
strictly greater, so on a tie the later channel replaces it; the tie vector
resolves to `sad`, not `happy`. -/
theorem dominant_tie_resolves_to_later :
    (dominantEntry tieVector).1 = "sad" ∧
    ¬ ((dominantEntry tieVector).1 = "happy") := by
  constructor <;> decide

/-- C3 (amended): dominant-channel resolution is a deterministic total
function of the vector; the result is one of the seven entries, its value is
the maximum over all channels, and among the entries attaining that maximum
it is the one latest in canonical order (the last entry the maximality filter
keeps); in particular the tie vector `happy = sad = 50` resolves to `sad`. -/
theorem dominant_resolution_last_max (e : EmotionData) :
    dominantEntry e ∈ e.entries
    ∧ (∀ p ∈ e.entries, p.2 ≤ (dominantEntry e).2)
    ∧ (e.entries.filter (fun p => (dominantEntry e).2 ≤ p.2)).getLast?
        = some (dominantEntry e)
    ∧ dominantEntry tieVector = ("sad", 50) := by
  refine ⟨?_, ?_, ?_, by decide⟩
  · rw [dominantEntry_eq_foldl, entries_eq_cons]
    exact foldl_reduceStep_mem _ _
  · rw [dominantEntry_eq_foldl, entries_eq_cons]
    exact foldl_reduceStep_le _ _
  · rw [dominantEntry_eq_foldl, entries_eq_cons]
    exact foldl_reduceStep_lastMax _ _

/-- C4 (counterexample): `generateEmpatheticResponse` in `src/server/routes.ts`
reduces `Object.entries(emotionContext)` with no default substitution, so on
an emotion context with no channel entries the dominant-channel reduction
fails (the `reduce` of an empty array throws), refuting the claim that every
resolution path never fails on any input. -/
theorem routes_dominant_fails_on_empty : routesDominant (some []) = none := rfl

/-- The `catch` fallback text of `generateEmpatheticResponse`. -/
def empatheticCatchFallback : String :=
  "أعتذر، واجهت مشكلة في الاستجابة. يرجى المحاولة مرة أخرى."

/-- The text returned when the OpenAI response content is empty. -/
def empatheticEmptyFallback : String :=
  "أعتذر، لم أتمكن من فهم رسالتك. هل يمكنك إعادة صياغتها؟"

/-- Body of `generateEmpatheticResponse` of `src/server/routes.ts`: resolve
the dominant channel with no guard, call the OpenAI endpoint (abstracted as
`api`, taking the dominant pair and either failing or returning an optional
content string); any thrown error is caught and mapped to the fixed
fallback message. -/
def generateEmpatheticResponse (input : EmotionInput)
    (api : String × ℚ → Except String (Option String)) : String :=
  match routesDominant input with
  | none => empatheticCatchFallback
  | some d =>
    match api d with
    | .error _ => empatheticCatchFallback
    | .ok content => content.getD empatheticEmptyFallback

theorem normalizedEntries_ne_nil (input : EmotionInput) :
    normalizedEntries input ≠ [] := by
  unfold normalizedEntries
  match input with
  | none => simp [EmotionData.entries]
  | some [] => simp
  | some (h :: t) => simp

theorem reduceDominant_isSome {l : List (String × ℚ)} (h : l ≠ []) :
    (reduceDominant l).isSome = true := by
  match l with
  | [] => exact absurd rfl h
  | a :: t => rfl

/-- C4 (amended): every descriptor in `src/server/ai-providers.ts` replaces a
missing or malformed context by the default vector (`neutral = 100`) and an
empty entry list by `['neutral', 100]` before reducing, so its
dominant-channel resolution never fails and resolves those inputs to
`neutral`; the `generateEmpatheticResponse` path of `src/server/routes.ts`
performs no such substitution — on a missing or empty vector its
dominant-channel reduction fails, and the surrounding catch turns the failure
into a fixed fallback message instead of a resolved response. -/
theorem provider_dominant_total (input : EmotionInput)
    (api : String × ℚ → Except String (Option String)) :
    (providerDominant input).isSome = true
    ∧ providerDominant none = some ("neutral", 100)
    ∧ providerDominant (some []) = some ("neutral", 100)
    ∧ routesDominant none = none
    ∧ generateEmpatheticResponse (some []) api = empatheticCatchFallback
    ∧ generateEmpatheticResponse none api = empatheticCatchFallback := by
  refine ⟨reduceDominant_isSome (normalizedEntries_ne_nil input), by decide, by decide,
    rfl, rfl, rfl⟩

/-- Descriptor of one response-generating service, `AIProvider` of
`src/server/ai-providers.ts`: `configured` is the result of `isConfigured()`
and `generate` the outcome of `generateResponse` (`Except.error` models a
thrown failure). -/
structure AIProvider where
  name : String
  configured : Bool
  generate : String → EmotionInput → Except String String

/-- The failover loop of `AIProviderManager.generateResponse`: try providers
in order, skip unconfigured ones, return the first successful response with
its provider name; `none` when the loop exhausts. -/
def tryProviders (msg : String) (ctx : EmotionInput) : List AIProvider → Option (String × String)
  | [] => none
  | p :: rest =>
    if p.configured then
      match p.generate msg ctx with
      | .ok response => some (response, p.name)
      | .error _ => tryProviders msg ctx rest
    else
      tryProviders msg ctx rest

/-- Names of the providers whose `generate` the loop actually invokes, in
invocation order (unconfigured providers are skipped without invocation, and
the loop stops at the first success). -/
def attemptedProviders (msg : String) (ctx : EmotionInput) : List AIProvider → List String
  | [] => []
  | p :: rest =>
    if p.configured then
      match p.generate msg ctx with
      | .ok _ => [p.name]
      | .error _ => p.name :: attemptedProviders msg ctx rest
    else
      attemptedProviders msg ctx rest

/-- Response pools of `LocalProvider.getEmotionResponses` in
`src/server/ai-providers.ts`, keyed by the dominant emotion and whether its
intensity exceeds 60. -/
def getEmotionResponses (emotion : String) (intensity : ℚ) : List String :=
  match emotion with
  | "happy" =>
    if intensity > 60 then
      ["رائع! أشعر بسعادتك الكبيرة 😊 هذه لحظات جميلة تستحق الاحتفال بها.",
       "ما أجمل هذه السعادة التي تشعر بها! 🌟 استمتع بكل لحظة منها.",
       "سعادتك تنير يومي! 😄 شاركني ما جعلك تشعر بهذا الفرح."]
    else
      ["أحب أن أراك مبتسماً 😊 هذه البداية الجيدة لليوم.",
       "شعور جميل بالسعادة 🌸 أتمنى أن يستمر معك.",
       "أشعر بإيجابيتك اللطيفة ✨ كيف يمكنني مساعدتك اليوم؟"]
  | "sad" =>
    if intensity > 60 then
      ["أعلم أن الأمر صعب عليك الآن 💙 لست وحدك في هذا الشعور.",
       "الحزن جزء من الحياة، وأنا هنا للاستماع إليك 🤗",
       "أتفهم ألمك، وأريدك أن تعلم أن هذا الشعور سيمر 💪"]
    else
      ["أشعر ببعض الحزن في صوتك 💙 هل تريد التحدث عما يؤثر عليك؟",
       "يبدو أن يومك ليس على ما يرام 🌙 أنا هنا إذا احتجت للحديث.",
       "الحزن الخفيف طبيعي أحياناً 💭 ما رأيك في فعل شيء يحسن مزاجك؟"]
  | "angry" =>
    if intensity > 60 then
      ["أفهم غضبك، وهذا شعور مبرر 🔥 دعنا نتحدث عما يزعجك.",
       "الغضب قوي، لكن يمكننا التعامل معه سوياً 💪 تنفس بعمق.",
       "أرى أن الأمر يؤثر عليك كثيراً 😤 هل تريد مشاركة ما حدث؟"]
    else
      ["أشعر ببعض الانزعاج 😕 هل هناك شيء يمكنني مساعدتك فيه؟",
       "يبدو أن شيئاً ما يضايقك قليلاً 🤔 أخبرني عنه.",
       "الإحباط طبيعي أحياناً 💭 كيف يمكنني دعمك؟"]
  | _ =>
    ["أقدر مشاركتك معي 😊 كيف يمكنني مساعدتك اليوم؟",
     "أنا هنا للاستماع والمساعدة 🤗 ما الذي يشغل بالك؟",
     "شكراً لثقتك بي 💙 أخبرني كيف تشعر وما تحتاجه."]

/-- The fixed template `LocalProvider.generateResponse` appends after the
randomly chosen response. -/
def localResponseSuffix : String :=
  " \n\nأفهم مشاعرك وأقدر مشاركتك لها معي. هل تود التحدث أكثر حول ما تشعر به؟\n\n💡 نصيحة: يمكنك الحصول على ردود أكثر تطوراً بإضافة مفتاح API للذكاء الاصطناعي من الإعدادات."

/-- Body of `LocalProvider.generateResponse`: normalize the context, resolve
the dominant channel (the normalized entry list is never empty, so the
unreachable first arm returns the empty string), pick one of the three pooled
responses by the random index, and append the fixed template. It never
throws. -/
def localGenerate (rand : ℕ) (userMessage : String) (ctx : EmotionInput) : String :=
  match reduceDominant (normalizedEntries ctx) with
  | none => ""
  | some d =>
    let responses := getEmotionResponses d.1 d.2
    let randomResponse := responses.getD (rand % responses.length) ""
    randomResponse ++ localResponseSuffix

/-- Name of the fallback local provider. -/
def localProviderName : String := "الذكاء المحلي (مضمون)"

/-- The `LocalProvider` descriptor: always configured, and `generate` always
succeeds (`rand` stands for the `Math.random()` draw). -/
def localProvider (rand : ℕ) : AIProvider :=
  { name := localProviderName, configured := true,
    generate := fun msg ctx => Except.ok (localGenerate rand msg ctx) }

/-- Whole body of `AIProviderManager.generateResponse`: run the failover
loop; if it exhausts, invoke a fresh `LocalProvider` directly and return its
result. The result pairs the response text with the provider name. -/
def managerGenerate (providers : List AIProvider) (rand : ℕ) (msg : String)
    (ctx : EmotionInput) : String × String :=
  match tryProviders msg ctx providers with
  | some result => result
  | none => (localGenerate rand msg ctx, localProviderName)

/- Helper lemmas on the failover loop. -/

theorem filter_cons_pos {α : Type} (p : α → Bool) (a : α) (l : List α) (h : p a = true) :
    List.filter p (a :: l) = a :: List.filter p l := by
  rw [List.filter_cons, if_pos h]

theorem filter_cons_neg {α : Type} (p : α → Bool) (a : α) (l : List α) (h : p a = false) :
    List.filter p (a :: l) = List.filter p l := by
  rw [List.filter_cons, if_neg (by simp [h])]

theorem attemptedProviders_sublist (msg : String) (ctx : EmotionInput) :
    ∀ ps : List AIProvider,
      (attemptedProviders msg ctx ps).Sublist
        ((ps.filter (fun p => p.configured)).map (fun p => p.name)) := by
  intro ps
  induction ps with
  | nil => simp [attemptedProviders]
  | cons p rest ih =>
    unfold attemptedProviders
    by_cases hc : p.configured
    · rw [if_pos hc, filter_cons_pos _ _ _ hc, List.map_cons]
      match hg : p.generate msg ctx with
      | .ok r => exact (List.nil_sublist _).cons₂ p.name
      | .error e => exact ih.cons₂ p.name
    · have hcf : p.configured = false := by simpa using hc
      rw [if_neg hc, filter_cons_neg _ _ _ hcf]
      exact ih

theorem tryProviders_eq_some (msg : String) (ctx : EmotionInput) :
    ∀ (ps : List AIProvider) (r n : String),
      tryProviders msg ctx ps = some (r, n) →
      ∃ pre p post, ps = pre ++ p :: post
        ∧ p.configured = true
        ∧ p.generate msg ctx = .ok r
        ∧ n = p.name
        ∧ (∀ q ∈ pre, q.configured = true → ∃ err, q.generate msg ctx = .error err)
        ∧ attemptedProviders msg ctx ps
            = ((pre.filter (fun q => q.configured)).map (fun q => q.name)) ++ [p.name] := by
  intro ps
  induction ps with
  | nil => intro r n h; exact absurd h (by simp [tryProviders])
  | cons p rest ih =>
    intro r n h
    unfold tryProviders at h
    by_cases hc : p.configured
    · rw [if_pos hc] at h
      match hg : p.generate msg ctx with
      | .ok resp =>
        rw [hg] at h
        have hr : resp = r ∧ p.name = n := by
          constructor <;> { injection h with h1; injection h1 }
        refine ⟨[], p, rest, by simp, hc, by rw [hg, hr.1], hr.2.symm, by simp, ?_⟩
        unfold attemptedProviders
        rw [if_pos hc, hg]
        simp
      | .error e =>
        rw [hg] at h
        obtain ⟨pre, q, post, hsplit, hqc, hqg, hn, hpre, hatt⟩ := ih r n h
        refine ⟨p :: pre, q, post, by rw [hsplit]; rfl, hqc, hqg, hn, ?_, ?_⟩
        · intro x hx hxc
          rcases List.mem_cons.mp hx with hx1 | hx1
          · exact ⟨e, by rw [hx1, hg]⟩
          · exact hpre x hx1 hxc
        · unfold attemptedProviders
          rw [if_pos hc, hg, hatt, filter_cons_pos _ _ _ hc, List.map_cons]
          rfl
    · have hcf : p.configured = false := by simpa using hc
      rw [if_neg hc] at h
      obtain ⟨pre, q, post, hsplit, hqc, hqg, hn, hpre, hatt⟩ := ih r n h
      refine ⟨p :: pre, q, post, by rw [hsplit]; rfl, hqc, hqg, hn, ?_, ?_⟩
      · intro x hx hxc
        rcases List.mem_cons.mp hx with hx1 | hx1
        · rw [hx1] at hxc; exact absurd hxc (by simp [hcf])
        · exact hpre x hx1 hxc
      · unfold attemptedProviders
        rw [if_neg hc, hatt, filter_cons_neg _ _ _ hcf]

/-- Scenario descriptor A: unconfigured. -/
def providerA : AIProvider :=
  { name := "A", configured := false, generate := fun _ _ => .error "never invoked" }

/-- Scenario descriptor B: configured, always fails. -/
def providerB : AIProvider :=
  { name := "B", configured := true, generate := fun _ _ => .error "always fails" }

/-- Scenario descriptor C: configured, always succeeds. -/
def providerC : AIProvider :=
  { name := "C", configured := true, generate := fun _ _ => .ok "success" }

/-- C1 (confirmed): the failover loop invokes only configured descriptors, in
list order, at most once each (its invocation trace is a sublist of the
configured names in order); whenever it returns a result, the providers split
into a prefix whose configured members all failed, followed by the successful
descriptor whose name is returned, and the invocation trace stops there
(descriptors after the success are never invoked); for the scenario
`[A unconfigured, B configured failing, C configured succeeding]` it returns
the response with name `C`, invoking B exactly once and A never. -/
theorem provider_chain_resolve_order (msg : String) (ctx : EmotionInput) :
    (∀ ps : List AIProvider,
        (attemptedProviders msg ctx ps).Sublist
          ((ps.filter (fun p => p.configured)).map (fun p => p.name)))
    ∧ (∀ (ps : List AIProvider) (r n : String),
        tryProviders msg ctx ps = some (r, n) →
        ∃ pre p post, ps = pre ++ p :: post
          ∧ p.configured = true
          ∧ p.generate msg ctx = .ok r
          ∧ n = p.name
          ∧ (∀ q ∈ pre, q.configured = true → ∃ err, q.generate msg ctx = .error err)
          ∧ attemptedProviders msg ctx ps
              = ((pre.filter (fun q => q.configured)).map (fun q => q.name)) ++ [p.name])
    ∧ tryProviders msg ctx [providerA, providerB, providerC] = some ("success", "C")
    ∧ attemptedProviders msg ctx [providerA, providerB, providerC] = ["B", "C"]
    ∧ (attemptedProviders msg ctx [providerA, providerB, providerC]).count "B" = 1
    ∧ (attemptedProviders msg ctx [providerA, providerB, providerC]).count "A" = 0 := by
  exact ⟨attemptedProviders_sublist msg ctx, tryProviders_eq_some msg ctx,
    rfl, rfl, rfl, rfl⟩

theorem tryProviders_with_local_isSome (msg : String) (ctx : EmotionInput) (rand : ℕ) :
    ∀ others : List AIProvider,
      (tryProviders msg ctx (others ++ [localProvider rand])).isSome = true := by
  intro others
  induction others with
  | nil => rfl
  | cons p rest ih =>
    rw [List.cons_append]
    unfold tryProviders
    by_cases hc : p.configured
    · rw [if_pos hc]
      match hg : p.generate msg ctx with
      | .ok r => rfl
      | .error e => exact ih
    · rw [if_neg hc]
      exact ih

/-- C2 (confirmed): with the always-configured, never-failing local provider
as the tail of the chain, the failover loop always produces a result (it is
never `none`, so no provider error escapes), and the whole
`generateResponse` body returns exactly that result — the direct local
fallback after the loop is unreachable. This holds for every message, every
context, and every combination of configurations and generate outcomes of the
other descriptors. -/
theorem resolve_always_returns (others : List AIProvider) (rand : ℕ) (msg : String)
    (ctx : EmotionInput) :
    (localProvider rand).configured = true
    ∧ (∀ (m : String) (c : EmotionInput),
        (localProvider rand).generate m c = .ok (localGenerate rand m c))
    ∧ (tryProviders msg ctx (others ++ [localProvider rand])).isSome = true
    ∧ tryProviders msg ctx (others ++ [localProvider rand])
        = some (managerGenerate (others ++ [localProvider rand]) rand msg ctx) := by
  refine ⟨rfl, fun m c => rfl, tryProviders_with_local_isSome msg ctx rand others, ?_⟩
  have h := tryProviders_with_local_isSome msg ctx rand others
  match hv : tryProviders msg ctx (others ++ [localProvider rand]) with
  | some v =>
    unfold managerGenerate
    rw [hv]
  | none =>
    rw [hv] at h
    exact absurd h (by simp)

/-- One entry of the client emotion buffer, interface `EmotionBuffer` of
`src/client/src/hooks/useEmotionBuffer.ts` (`timestamp` is `Date.now()` in
milliseconds). -/
structure EmotionBufferEntry where
  emotions : EmotionData
  timestamp : ℤ
  age : Option ℚ
  gender : Option String
deriving DecidableEq

/-- JavaScript `array.slice(-n)`: the last `min(n, length)` elements. -/
def sliceLast {α : Type} (n : ℕ) (l : List α) : List α :=
  l.drop (l.length - n)

/-- State update of `addEmotion`: append the new entry, then
`.slice(-10)` keeps only the last 10 entries. -/
def addEmotion (prev : List EmotionBufferEntry) (newEntry : EmotionBufferEntry) :
    List EmotionBufferEntry :=
  sliceLast 10 (prev ++ [newEntry])

/-- Buffer contents after a sequence of `addEmotion` calls starting from the
empty initial state. -/
def appendAll (entries : List EmotionBufferEntry) : List EmotionBufferEntry :=
  entries.foldl addEmotion []

/-- Body of `getLatestEmotion`: the last buffer element, or `null` when the
buffer is empty. -/
def getLatestEmotion (buf : List EmotionBufferEntry) : Option EmotionBufferEntry :=
  buf.getLast?

/-- Body of `getAverageEmotions`: select the entries no older than
`timeWindowMs` relative to `now`, return `null` when none qualify, otherwise
sum each channel over the selection and divide every channel by the
selection size. -/
def getAverageEmotions (now timeWindowMs : ℤ) (buf : List EmotionBufferEntry) :
    Option EmotionData :=
  let recentEmotions := buf.filter (fun entry => now - entry.timestamp ≤ timeWindowMs)
  if recentEmotions.isEmpty then none
  else
    some ((recentEmotions.foldl (fun acc entry => acc.add entry.emotions)
      zeroEmotion).divBy recentEmotions.length)

/- Helper lemmas on the buffer. -/

theorem sliceLast_append {α : Type} (n : ℕ) (l r : List α) :
    sliceLast n (sliceLast n l ++ r) = sliceLast n (l ++ r) := by
  unfold sliceLast
  rw [List.drop_append_eq_append_drop, List.drop_append_eq_append_drop, List.drop_drop]
  simp only [List.length_append, List.length_drop]
  congr 1
  · congr 1
    omega
  · congr 1
    omega

theorem sliceLast_length_le {α : Type} (n : ℕ) (l : List α) :
    (sliceLast n l).length ≤ n := by
  unfold sliceLast
  rw [List.length_drop]
  omega

theorem sliceLast_of_le {α : Type} (n : ℕ) (l : List α) (h : l.length ≤ n) :
    sliceLast n l = l := by
  unfold sliceLast
  have : l.length - n = 0 := by omega
  rw [this, List.drop_zero]

theorem foldl_addEmotion (xs : List EmotionBufferEntry) :
    ∀ b : List EmotionBufferEntry, b.length ≤ 10 →
      xs.foldl addEmotion b = sliceLast 10 (b ++ xs) := by
  induction xs with
  | nil =>
    intro b hb
    rw [List.foldl_nil, List.append_nil, sliceLast_of_le _ _ hb]
  | cons x t ih =>
    intro b hb
    rw [List.foldl_cons, ih (addEmotion b x) (sliceLast_length_le _ _)]
    unfold addEmotion
    rw [sliceLast_append]
    congr 1
    rw [List.append_assoc]
    rfl

theorem appendAll_eq_sliceLast (xs : List EmotionBufferEntry) :
    appendAll xs = sliceLast 10 xs := by
  unfold appendAll
  rw [foldl_addEmotion xs [] (by simp)]
  rfl

/-- Entry used in the twelve-append scenario: default vector, timestamp `i`. -/
def testEntry (i : ℤ) : EmotionBufferEntry :=
  { emotions := createDefaultEmotionContext, timestamp := i, age := none, gender := none }

/-- The twelve entries appended in the capacity scenario. -/
def twelveEntries : List EmotionBufferEntry :=
  [testEntry 1, testEntry 2, testEntry 3, testEntry 4, testEntry 5, testEntry 6,
   testEntry 7, testEntry 8, testEntry 9, testEntry 10, testEntry 11, testEntry 12]

/-- C5 (confirmed): for every append sequence the buffer is the last
`min(10, count)` appended entries in insertion order, so its length never
exceeds 10; appending the twelve scenario entries leaves exactly entries 3
through 12, with `getLatestEmotion` returning the 12th and the first two
entries absent. -/
theorem buffer_keeps_last_ten (xs : List EmotionBufferEntry) :
    (appendAll xs).length = min 10 xs.length
    ∧ appendAll xs = xs.drop (xs.length - 10)
    ∧ getLatestEmotion (appendAll twelveEntries) = some (testEntry 12)
    ∧ (appendAll twelveEntries).length = 10
    ∧ appendAll twelveEntries =
        [testEntry 3, testEntry 4, testEntry 5, testEntry 6, testEntry 7,
         testEntry 8, testEntry 9, testEntry 10, testEntry 11, testEntry 12]
    ∧ testEntry 1 ∉ appendAll twelveEntries
    ∧ testEntry 2 ∉ appendAll twelveEntries := by
  refine ⟨?_, ?_, by decide, by decide, by decide, by decide, by decide⟩
  · rw [appendAll_eq_sliceLast]
    unfold sliceLast
    rw [List.length_drop]
    omega
  · rw [appendAll_eq_sliceLast]
    rfl

theorem foldl_add_channel (g : EmotionData → ℚ)
    (hg : ∀ a b : EmotionData, g (a.add b) = g a + g b) :
    ∀ (l : List EmotionBufferEntry) (init : EmotionData),
      g (l.foldl (fun acc entry => acc.add entry.emotions) init)
        = g init + (l.map (fun entry => g entry.emotions)).sum := by
  intro l
  induction l with
  | nil => intro init; simp
  | cons x t ih =>
    intro init
    rw [List.foldl_cons, ih, hg, List.map_cons, List.sum_cons]
    ring

/-- C6 (confirmed): `getAverageEmotions` selects exactly the entries with
`now - timestamp ≤ timeWindowMs`; it returns `null` precisely when that
selection is empty, and otherwise every one of the seven output channels is
the sum of that channel over the selected entries divided by the number of
selected entries — the same divisor for every channel. -/
theorem windowed_average_is_mean (now timeWindowMs : ℤ) (buf : List EmotionBufferEntry) :
    (getAverageEmotions now timeWindowMs buf = none
      ↔ buf.filter (fun entry => now - entry.timestamp ≤ timeWindowMs) = [])
    ∧ (∀ v : EmotionData, getAverageEmotions now timeWindowMs buf = some v →
        v.happy = ((buf.filter (fun entry => now - entry.timestamp ≤ timeWindowMs)).map
            (fun entry => entry.emotions.happy)).sum
          / (buf.filter (fun entry => now - entry.timestamp ≤ timeWindowMs)).length
        ∧ v.sad = ((buf.filter (fun entry => now - entry.timestamp ≤ timeWindowMs)).map
            (fun entry => entry.emotions.sad)).sum
          / (buf.filter (fun entry => now - entry.timestamp ≤ timeWindowMs)).length
        ∧ v.angry = ((buf.filter (fun entry => now - entry.timestamp ≤ timeWindowMs)).map
            (fun entry => entry.emotions.angry)).sum
          / (buf.filter (fun entry => now - entry.timestamp ≤ timeWindowMs)).length
        ∧ v.surprised = ((buf.filter (fun entry => now - entry.timestamp ≤ timeWindowMs)).map
            (fun entry => entry.emotions.surprised)).sum
          / (buf.filter (fun entry => now - entry.timestamp ≤ timeWindowMs)).length
        ∧ v.fearful = ((buf.filter (fun entry => now - entry.timestamp ≤ timeWindowMs)).map
            (fun entry => entry.emotions.fearful)).sum
          / (buf.filter (fun entry => now - entry.timestamp ≤ timeWindowMs)).length
        ∧ v.disgusted = ((buf.filter (fun entry => now - entry.timestamp ≤ timeWindowMs)).map
            (fun entry => entry.emotions.disgusted)).sum
          / (buf.filter (fun entry => now - entry.timestamp ≤ timeWindowMs)).length
        ∧ v.neutral = ((buf.filter (fun entry => now - entry.timestamp ≤ timeWindowMs)).map
            (fun entry => entry.emotions.neutral)).sum
          / (buf.filter (fun entry => now - entry.timestamp ≤ timeWindowMs)).length) := by
  by_cases hemp : (buf.filter (fun entry => now - entry.timestamp ≤ timeWindowMs)).isEmpty
  · constructor
    · constructor
      · intro _
        exact List.isEmpty_iff.mp hemp
      · intro _
        unfold getAverageEmotions
        rw [if_pos hemp]
    · intro v hv
      unfold getAverageEmotions at hv
      rw [if_pos hemp] at hv
      exact absurd hv (by simp)
  · constructor
    · constructor
      · intro hcon
        unfold getAverageEmotions at hcon
        rw [if_neg hemp] at hcon
        exact absurd hcon (by simp)
      · intro hcon
        rw [hcon] at hemp
        exact absurd rfl hemp
    · intro v hv
      unfold getAverageEmotions at hv
      rw [if_neg hemp] at hv
      have hv2 : (((buf.filter (fun entry => now - entry.timestamp ≤ timeWindowMs)).foldl
          (fun acc entry => acc.add entry.emotions) zeroEmotion).divBy
          (buf.filter (fun entry => now - entry.timestamp ≤ timeWindowMs)).length) = v := by
        injection hv
      rw [← hv2]
      unfold EmotionData.divBy
      refine ⟨?_, ?_, ?_, ?_, ?_, ?_, ?_⟩
      · rw [foldl_add_channel EmotionData.happy (by intro a b; simp [EmotionData.add])]
        simp [zeroEmotion]
      · rw [foldl_add_channel EmotionData.sad (by intro a b; simp [EmotionData.add])]
        simp [zeroEmotion]
      · rw [foldl_add_channel EmotionData.angry (by intro a b; simp [EmotionData.add])]
        simp [zeroEmotion]
      · rw [foldl_add_channel EmotionData.surprised (by intro a b; simp [EmotionData.add])]
        simp [zeroEmotion]
      · rw [foldl_add_channel EmotionData.fearful (by intro a b; simp [EmotionData.add])]
        simp [zeroEmotion]
      · rw [foldl_add_channel EmotionData.disgusted (by intro a b; simp [EmotionData.add])]
        simp [zeroEmotion]
      · rw [foldl_add_channel EmotionData.neutral (by intro a b; simp [EmotionData.add])]
        simp [zeroEmotion]

/-- Session record of `shared/schema.ts` as created by
`MemStorage.createSession` (`startTime` is always set there, so it is not
optional in the model; times are epoch milliseconds). -/
structure Session where
  id : ℕ
  userId : Option String
  startTime : ℤ
  endTime : Option ℤ
  isActive : Bool
deriving DecidableEq

/-- Duration computation of the stats endpoint in `src/server/routes.ts`:
`Math.floor((Date.now() - startTime) / 1000)` while the session is active,
`Math.floor((endTime - startTime) / 1000)` when it has ended, 0 otherwise. -/
def sessionDuration (now : ℤ) (session : Session) : ℤ :=
  if session.isActive then (now - session.startTime).fdiv 1000
  else
    match session.endTime with
    | some endTime => (endTime - session.startTime).fdiv 1000
    | none => 0

/-- Inactive session of the duration scenario: started at `t0`, ended 120
seconds later. -/
def scenarioSession (t0 : ℤ) : Session :=
  { id := 0, userId := none, startTime := t0, endTime := some (t0 + 120000),
    isActive := false }

/-- C7 (confirmed): `durationSeconds` is `now - startTime` in whole seconds
for an active session, `endTime - startTime` in whole seconds for an ended
one regardless of the query time, and 0 otherwise; the ended session of the
scenario queried 500 seconds after its start still reports 120, not 500. -/
theorem duration_frozen_after_end (now : ℤ) (s : Session) :
    (s.isActive = true → sessionDuration now s = (now - s.startTime).fdiv 1000)
    ∧ (s.isActive = false → ∀ e : ℤ, s.endTime = some e →
        sessionDuration now s = (e - s.startTime).fdiv 1000)
    ∧ (s.isActive = false → s.endTime = none → sessionDuration now s = 0)
    ∧ (∀ t0 : ℤ, sessionDuration (t0 + 500000) (scenarioSession t0) = 120)
    ∧ (∀ t0 : ℤ, sessionDuration (t0 + 500000) (scenarioSession t0) ≠ 500) := by
  have hscen : ∀ t0 : ℤ, sessionDuration (t0 + 500000) (scenarioSession t0) = 120 := by
    intro t0
    unfold sessionDuration scenarioSession
    simp only [Bool.false_eq_true, if_false]
    have harith : t0 + 120000 - t0 = 120000 := by ring
    rw [harith]
    decide
  refine ⟨?_, ?_, ?_, hscen, ?_⟩
  · intro ha
    unfold sessionDuration
    rw [if_pos ha]
  · intro ha e he
    unfold sessionDuration
    rw [if_neg (by simp [ha]), he]
  · intro ha he
    unfold sessionDuration
    rw [if_neg (by simp [ha]), he]
  · intro t0
    rw [hscen t0]
    decide

/-- Persisted emotion sample, `EmotionAnalysis` of `shared/schema.ts`
(`confidence` is nullable). -/
structure EmotionAnalysis where
  sessionId : Option String
  timestamp : ℤ
  emotions : EmotionData
  confidence : Option ℤ
deriving DecidableEq

/-- JavaScript `Math.round`: half-way values round toward positive
infinity. -/
def jsRound (x : ℚ) : ℤ := ⌊x + 1/2⌋

/-- The `averageConfidence` computation of the stats endpoint:
`Math.round(reduce((sum, e) => sum + (e.confidence || 0), 0) / length)` when
there are samples, 0 otherwise. -/
def averageConfidence (emotions : List EmotionAnalysis) : ℤ :=
  if 0 < emotions.length then
    jsRound ((emotions.foldl (fun sum e => sum + ((e.confidence.getD 0 : ℤ) : ℚ)) 0)
      / emotions.length)
  else 0

/-- The `emotionTotals` accumulation of the stats endpoint: per-channel sums
over every sample of the session. -/
def emotionTotals (emotions : List EmotionAnalysis) : EmotionData :=
  emotions.foldl (fun acc analysis => acc.add analysis.emotions) zeroEmotion

/-- Entry list of the `emotionTotals` record object: empty when no sample was
folded in (no key was ever inserted); with at least one full-vector sample
its keys are the canonical seven in first-insertion order. -/
def emotionTotalsEntries (emotions : List EmotionAnalysis) : List (String × ℚ) :=
  if emotions.isEmpty then [] else (emotionTotals emotions).entries

/-- The `dominantEmotion` computation of the stats endpoint:
reduce the totals entries when there are any, else `'neutral'`. -/
def dominantEmotionStat (emotions : List EmotionAnalysis) : String :=
  match reduceDominant (emotionTotalsEntries emotions) with
  | some p => p.1
  | none => "neutral"

/-- The `latestEmotions` field of the stats response:
`emotions.slice(-1)[0]?.emotions || null`, the vector of the last element of
the session's analysis list. -/
def latestEmotions (emotions : List EmotionAnalysis) : Option EmotionData :=
  (emotions.getLast?).map (fun analysis => analysis.emotions)

theorem foldl_add_rat {α : Type} (f : α → ℚ) :
    ∀ (l : List α) (init : ℚ),
      l.foldl (fun s a => s + f a) init = init + (l.map f).sum := by
  intro l
  induction l with
  | nil => intro init; simp
  | cons x t ih =>
    intro init
    rw [List.foldl_cons, ih, List.map_cons, List.sum_cons]
    ring

theorem foldl_add_proj {α : Type} (em : α → EmotionData) (g : EmotionData → ℚ)
    (hg : ∀ a b : EmotionData, g (a.add b) = g a + g b) :
    ∀ (l : List α) (init : EmotionData),
      g (l.foldl (fun acc x => acc.add (em x)) init)
        = g init + (l.map (fun x => g (em x))).sum := by
  intro l
  induction l with
  | nil => intro init; simp
  | cons x t ih =>
    intro init
    rw [List.foldl_cons, ih, hg, List.map_cons, List.sum_cons]
    ring

/-- Vector of the first scenario sample: `happy = 100`, everything else 0. -/
def statsVec1 : EmotionData :=
  { happy := 100, sad := 0, angry := 0, surprised := 0, fearful := 0,
    disgusted := 0, neutral := 0 }

/-- Vector of the second scenario sample: `happy = 60`, `sad = 40`. -/
def statsVec2 : EmotionData :=
  { happy := 60, sad := 40, angry := 0, surprised := 0, fearful := 0,
    disgusted := 0, neutral := 0 }

/-- Vector of the third scenario sample: `sad = 100`, everything else 0. -/
def statsVec3 : EmotionData :=
  { happy := 0, sad := 100, angry := 0, surprised := 0, fearful := 0,
    disgusted := 0, neutral := 0 }

/-- First scenario sample. -/
def statsSample1 : EmotionAnalysis :=
  { sessionId := some "s", timestamp := 1, emotions := statsVec1, confidence := none }

/-- Second scenario sample. -/
def statsSample2 : EmotionAnalysis :=
  { sessionId := some "s", timestamp := 2, emotions := statsVec2, confidence := none }

/-- Third scenario sample. -/
def statsSample3 : EmotionAnalysis :=
  { sessionId := some "s", timestamp := 3, emotions := statsVec3, confidence := none }

/-- The three persisted samples of the aggregation scenario. -/
def statsSamples : List EmotionAnalysis := [statsSample1, statsSample2, statsSample3]

/-- Expected totals of the aggregation scenario: `happy = 160`, `sad = 140`. -/
def scenarioTotals : EmotionData :=
  { happy := 160, sad := 140, angry := 0, surprised := 0, fearful := 0,
    disgusted := 0, neutral := 0 }

/-- C8 (confirmed): the aggregator sums every channel over all samples of the
session, resolves `dominantEmotion` by the dominant-channel reduction of
those totals (defaulting to `neutral` when there are no samples), and
`averageConfidence` is the rounded mean of the confidence fields with a
missing confidence treated as 0 (0 with no samples); the three-sample
scenario totals to `happy = 160, sad = 140` and resolves to `happy`. -/
theorem stats_aggregation (l : List EmotionAnalysis) :
    ((emotionTotals l).happy = (l.map (fun a => a.emotions.happy)).sum
      ∧ (emotionTotals l).sad = (l.map (fun a => a.emotions.sad)).sum
      ∧ (emotionTotals l).angry = (l.map (fun a => a.emotions.angry)).sum
      ∧ (emotionTotals l).surprised = (l.map (fun a => a.emotions.surprised)).sum
      ∧ (emotionTotals l).fearful = (l.map (fun a => a.emotions.fearful)).sum
      ∧ (emotionTotals l).disgusted = (l.map (fun a => a.emotions.disgusted)).sum
      ∧ (emotionTotals l).neutral = (l.map (fun a => a.emotions.neutral)).sum)
    ∧ dominantEmotionStat [] = "neutral"
    ∧ (l.isEmpty = false → dominantEmotionStat l = (dominantEntry (emotionTotals l)).1)
    ∧ averageConfidence [] = 0
    ∧ (0 < l.length → averageConfidence l
        = jsRound ((l.map (fun a => ((a.confidence.getD 0 : ℤ) : ℚ))).sum / l.length))
    ∧ emotionTotals statsSamples = scenarioTotals
    ∧ dominantEmotionStat statsSamples = "happy" := by
  refine ⟨?_, by decide, ?_, by decide, ?_, ?_, ?_⟩
  · unfold emotionTotals
    refine ⟨?_, ?_, ?_, ?_, ?_, ?_, ?_⟩
    · rw [foldl_add_proj EmotionAnalysis.emotions EmotionData.happy
        (by intro a b; simp [EmotionData.add])]
      simp [zeroEmotion]
    · rw [foldl_add_proj EmotionAnalysis.emotions EmotionData.sad
        (by intro a b; simp [EmotionData.add])]
      simp [zeroEmotion]
    · rw [foldl_add_proj EmotionAnalysis.emotions EmotionData.angry
        (by intro a b; simp [EmotionData.add])]
      simp [zeroEmotion]
    · rw [foldl_add_proj EmotionAnalysis.emotions EmotionData.surprised
        (by intro a b; simp [EmotionData.add])]
      simp [zeroEmotion]
    · rw [foldl_add_proj EmotionAnalysis.emotions EmotionData.fearful
        (by intro a b; simp [EmotionData.add])]
      simp [zeroEmotion]
    · rw [foldl_add_proj EmotionAnalysis.emotions EmotionData.disgusted
        (by intro a b; simp [EmotionData.add])]
      simp [zeroEmotion]
    · rw [foldl_add_proj EmotionAnalysis.emotions EmotionData.neutral
        (by intro a b; simp [EmotionData.add])]
      simp [zeroEmotion]
  · intro hne
    unfold dominantEmotionStat emotionTotalsEntries
    rw [if_neg (by simp [hne])]
    rw [reduceDominant_entries]
  · intro hlen
    unfold averageConfidence
    rw [if_pos hlen]
    rw [foldl_add_rat (fun e : EmotionAnalysis => ((e.confidence.getD 0 : ℤ) : ℚ))]
    simp
  · unfold emotionTotals statsSamples statsSample1 statsSample2 statsSample3
    unfold statsVec1 statsVec2 statsVec3 scenarioTotals zeroEmotion EmotionData.add
    norm_num
  · unfold dominantEmotionStat emotionTotalsEntries emotionTotals statsSamples
    unfold statsSample1 statsSample2 statsSample3 statsVec1 statsVec2 statsVec3
    norm_num [zeroEmotion, EmotionData.add, EmotionData.entries, reduceDominant, reduceStep]

/-- Predicate of `MemStorage.getActiveSessionByUserId`: the session belongs
to the user and is active. -/
def isActiveFor (userId : String) (session : Session) : Bool :=
  decide (session.userId = some userId) && session.isActive

/-- Body of `MemStorage.getActiveSessionByUserId`: first matching session in
insertion order (`Array.from(map.values()).find(...)`). -/
def getActiveSessionByUserId (sessions : List Session) (userId : String) : Option Session :=
  sessions.find? (isActiveFor userId)

/-- The session object `MemStorage.createSession` builds: active, no end
time, start time set to the creation instant. -/
def newSession (newId : ℕ) (userId : Option String) (now : ℤ) : Session :=
  { id := newId, userId := userId, startTime := now, endTime := none, isActive := true }

/-- Body of `MemStorage.createSession`: insert the new session (maps keep
insertion order, so this is an append). -/
def createSession (sessions : List Session) (newId : ℕ) (userId : Option String)
    (now : ℤ) : List Session :=
  sessions ++ [newSession newId userId now]

/-- The update `updateSession(id, { isActive: false, endTime })` applies to
one stored session. -/
def deactivate (id : ℕ) (now : ℤ) (session : Session) : Session :=
  if session.id = id then { session with isActive := false, endTime := some now }
  else session

/-- Effect of `updateSession(id, { isActive: false, endTime })` on the
store. -/
def endSession (sessions : List Session) (id : ℕ) (now : ℤ) : List Session :=
  sessions.map (deactivate id now)

/-- The `POST /api/sessions` handler of `src/server/routes.ts`: look up the
existing active session of the user, mark it inactive with an end time when
present, then create the new session. -/
def postSession (sessions : List Session) (userId : String) (newId : ℕ)
    (now : ℤ) : List Session :=
  match getActiveSessionByUserId sessions userId with
  | some existing => createSession (endSession sessions existing.id now) newId (some userId) now
  | none => createSession sessions newId (some userId) now

/-- Number of active sessions of one user in the store. -/
def activeCount (sessions : List Session) (userId : String) : ℕ :=
  sessions.countP (isActiveFor userId)

/-- Store contents after a sequence of `POST /api/sessions` requests
(each a triple of user, fresh id, instant) starting from the empty store. -/
def applyPosts (ops : List (String × ℕ × ℤ)) : List Session :=
  ops.foldl (fun st op => postSession st op.1 op.2.1 op.2.2) []

/- Helper lemmas on session counting. -/

theorem countP_le_of_imp {α : Type} (p q : α → Bool) (l : List α)
    (h : ∀ a ∈ l, p a = true → q a = true) : l.countP p ≤ l.countP q := by
  induction l with
  | nil => simp
  | cons x t ih =>
    have ht := ih (fun a ha => h a (List.mem_cons_of_mem _ ha))
    simp only [List.countP_cons]
    by_cases hx : p x = true
    · have hq := h x (List.mem_cons_self x t) hx
      rw [hx, hq]
      simpa using ht
    · have hx2 : p x = false := by simpa using hx
      rw [hx2]
      by_cases hqx : q x = true <;> simp [hqx] <;> omega

theorem two_le_countP {α : Type} (p : α → Bool) (l : List α) (a b : α)
    (ha : a ∈ l) (hb : b ∈ l) (hab : a ≠ b) (hpa : p a = true) (hpb : p b = true) :
    2 ≤ l.countP p := by
  obtain ⟨l1, l2, rfl⟩ := List.append_of_mem hb
  rw [List.countP_append, List.countP_cons]
  have ha2 : a ∈ l1 ∨ a ∈ l2 := by
    rcases List.mem_append.mp ha with h1 | h1
    · exact Or.inl h1
    · rcases List.mem_cons.mp h1 with h2 | h2
      · exact absurd h2 hab
      · exact Or.inr h2
  rw [hpb]
  rcases ha2 with h1 | h1
  · have hpos : 0 < l1.countP p := List.countP_pos_iff.mpr ⟨a, h1, hpa⟩
    simp only [if_true]
    omega
  · have hpos : 0 < l2.countP p := List.countP_pos_iff.mpr ⟨a, h1, hpa⟩
    simp only [if_true]
    omega

theorem isActiveFor_deactivate_imp (u : String) (id : ℕ) (now : ℤ) (s : Session) :
    isActiveFor u (deactivate id now s) = true → isActiveFor u s = true := by
  unfold deactivate
  by_cases hid : s.id = id
  · rw [if_pos hid]
    intro h
    exact absurd h (by simp [isActiveFor])
  · rw [if_neg hid]
    exact fun h => h

theorem activeCount_endSession_le (st : List Session) (u : String) (id : ℕ) (now : ℤ) :
    activeCount (endSession st id now) u ≤ activeCount st u := by
  unfold activeCount endSession
  rw [List.countP_map]
  exact countP_le_of_imp _ _ _
    (fun a _ h => isActiveFor_deactivate_imp u id now a (by simpa using h))

theorem activeCount_endSession_eq_zero (st : List Session) (u : String) (now : ℤ)
    (h1 : activeCount st u ≤ 1) (ex : Session) (hmem : ex ∈ st)
    (hex : isActiveFor u ex = true) :
    activeCount (endSession st ex.id now) u = 0 := by
  unfold activeCount endSession
  rw [List.countP_map, List.countP_eq_zero]
  intro s hs hp
  have hp2 : isActiveFor u (deactivate ex.id now s) = true := by simpa using hp
  by_cases hid : s.id = ex.id
  · unfold deactivate at hp2
    rw [if_pos hid] at hp2
    exact absurd hp2 (by simp [isActiveFor])
  · have hps : isActiveFor u s = true := isActiveFor_deactivate_imp u ex.id now s hp2
    have hne : s ≠ ex := fun hcon => hid (by rw [hcon])
    have h2 := two_le_countP (isActiveFor u) st s ex hs hmem hne hps hex
    unfold activeCount at h1
    omega

theorem activeCount_append_new (st : List Session) (u : String) (ns : Session) :
    activeCount (st ++ [ns]) u
      = activeCount st u + (if isActiveFor u ns = true then 1 else 0) := by
  unfold activeCount
  rw [List.countP_append, List.countP_cons, List.countP_nil]
  omega

theorem isActiveFor_newSession (u u2 : String) (newId : ℕ) (now : ℤ) :
    isActiveFor u2 (newSession newId (some u) now) = decide (u = u2) := by
  unfold isActiveFor newSession
  by_cases h : u = u2 <;> simp [h]

theorem postSession_preserves (st : List Session) (u : String) (newId : ℕ) (now : ℤ)
    (h : ∀ u2, activeCount st u2 ≤ 1) :
    (∀ u2, activeCount (postSession st u newId now) u2 ≤ 1)
    ∧ activeCount (postSession st u newId now) u = 1 := by
  unfold postSession
  match hfind : getActiveSessionByUserId st u with
  | none =>
    have hz : activeCount st u = 0 := by
      unfold activeCount
      rw [List.countP_eq_zero]
      exact List.find?_eq_none.mp hfind
    constructor
    · intro u2
      unfold createSession
      rw [activeCount_append_new, isActiveFor_newSession]
      by_cases hu : u = u2
      · rw [← hu, hz]
        simp
      · have := h u2
        simp [hu]
        omega
    · unfold createSession
      rw [activeCount_append_new, isActiveFor_newSession, hz]
      simp
  | some ex =>
    have hmem : ex ∈ st := List.mem_of_find?_eq_some hfind
    have hex : isActiveFor u ex = true := List.find?_some hfind
    have hz := activeCount_endSession_eq_zero st u now (h u) ex hmem hex
    constructor
    · intro u2
      unfold createSession
      rw [activeCount_append_new, isActiveFor_newSession]
      by_cases hu : u = u2
      · rw [← hu, hz]
        simp
      · have hle := activeCount_endSession_le st u2 ex.id now
        have := h u2
        simp [hu]
        omega
    · unfold createSession
      rw [activeCount_append_new, isActiveFor_newSession, hz]
      simp

theorem applyPosts_le_one (ops : List (String × ℕ × ℤ)) :
    ∀ st : List Session, (∀ u, activeCount st u ≤ 1) →
      ∀ u, activeCount (ops.foldl (fun st op => postSession st op.1 op.2.1 op.2.2) st) u ≤ 1 := by
  induction ops with
  | nil => intro st h u; exact h u
  | cons op t ih =>
    intro st h u
    rw [List.foldl_cons]
    exact ih _ (postSession_preserves st op.1 op.2.1 op.2.2 h).1 u

/-- C9 (confirmed): starting from an empty store, after any sequence of
session-creation requests every user has at most one active session: the
handler first deactivates the existing active session of the user (setting
its end time) and only then appends the new session, which always starts
active with no end time; after a request by a user whose store satisfied the
invariant, that user has exactly one active session. -/
theorem at_most_one_active_session (ops : List (String × ℕ × ℤ)) (st : List Session)
    (userId : String) (newId : ℕ) (now : ℤ) :
    (∀ u : String, activeCount (applyPosts ops) u ≤ 1)
    ∧ ((∀ u : String, activeCount st u ≤ 1) →
        activeCount (postSession st userId newId now) userId = 1)
    ∧ (postSession st userId newId now).getLast? = some (newSession newId (some userId) now)
    ∧ (newSession newId (some userId) now).isActive = true
    ∧ (newSession newId (some userId) now).endTime = none := by
  refine ⟨?_, ?_, ?_, rfl, rfl⟩
  · exact applyPosts_le_one ops [] (fun u => by simp [activeCount]) 
  · intro h
    exact (postSession_preserves st userId newId now h).2
  · unfold postSession
    match hfind : getActiveSessionByUserId st userId with
    | none =>
      unfold createSession
      exact List.getLast?_concat _
    | some ex =>
      unfold createSession
      exact List.getLast?_concat _

/-- Chat message record of `shared/schema.ts`. -/
structure ChatMessage where
  sessionId : Option String
  isUser : Bool
  content : String
  timestamp : ℤ
deriving DecidableEq

/-- Body of `MemStorage.getChatMessagesBySession`: filter the stored messages
(insertion order) by session, then sort ascending by timestamp
(`.sort((a, b) => a.timestamp - b.timestamp)`). -/
def getChatMessagesBySession (messages : List ChatMessage) (sessionId : String) :
    List ChatMessage :=
  (messages.filter (fun m => decide (m.sessionId = some sessionId))).mergeSort
    (fun a b => decide (a.timestamp ≤ b.timestamp))

/-- Body of `MemStorage.getEmotionAnalysesBySession`: filter the stored
analyses by session, keeping insertion order — no sort. -/
def getEmotionAnalysesBySession (analyses : List EmotionAnalysis) (sessionId : String) :
    List EmotionAnalysis :=
  analyses.filter (fun analysis => decide (analysis.sessionId = some sessionId))

/-- The `latestEmotions` field of the stats endpoint for a session: the
vector of the last element of the session's analysis listing. -/
def statsLatestEmotions (analyses : List EmotionAnalysis) (sessionId : String) :
    Option EmotionData :=
  latestEmotions (getEmotionAnalysesBySession analyses sessionId)

/-- First analysis of the ordering scenario: inserted first, timestamp 100. -/
def lateAnalysis1 : EmotionAnalysis :=
  { sessionId := some "s", timestamp := 100, emotions := createDefaultEmotionContext,
    confidence := none }

/-- Second analysis of the ordering scenario: inserted second, but with the
smaller timestamp 50. -/
def lateAnalysis2 : EmotionAnalysis :=
  { sessionId := some "s", timestamp := 50, emotions := tieVector, confidence := none }

/-- C10 (confirmed): the chat listing returns exactly the messages of the
session sorted non-decreasingly by timestamp, while the analysis listing
returns exactly the matching analyses as a sublist of insertion order with no
sorting; hence `latestEmotions` is the vector of the last-inserted matching
analysis — in the scenario where the second-inserted analysis has the smaller
timestamp, the analysis listing stays in insertion order (it is not
timestamp-sorted) and `latestEmotions` is still the second-inserted
vector. -/
theorem listings_order_and_latest (messages : List ChatMessage)
    (analyses : List EmotionAnalysis) (sid : String) :
    ((getChatMessagesBySession messages sid).Perm
        (messages.filter (fun m => decide (m.sessionId = some sid)))
      ∧ (∀ m : ChatMessage, m ∈ getChatMessagesBySession messages sid ↔
          (m ∈ messages ∧ m.sessionId = some sid))
      ∧ List.Pairwise (fun a b : ChatMessage => a.timestamp ≤ b.timestamp)
          (getChatMessagesBySession messages sid))
    ∧ ((getEmotionAnalysesBySession analyses sid).Sublist analyses
      ∧ (∀ a : EmotionAnalysis, a ∈ getEmotionAnalysesBySession analyses sid ↔
          (a ∈ analyses ∧ a.sessionId = some sid)))
    ∧ (∀ a : EmotionAnalysis, statsLatestEmotions (analyses ++ [a]) sid
        = if a.sessionId = some sid then some a.emotions
          else statsLatestEmotions analyses sid)
    ∧ getEmotionAnalysesBySession [lateAnalysis1, lateAnalysis2] "s"
        = [lateAnalysis1, lateAnalysis2]
    ∧ statsLatestEmotions [lateAnalysis1, lateAnalysis2] "s" = some tieVector
    ∧ lateAnalysis2.timestamp < lateAnalysis1.timestamp
    ∧ ¬ List.Pairwise (fun a b : EmotionAnalysis => a.timestamp ≤ b.timestamp)
        (getEmotionAnalysesBySession [lateAnalysis1, lateAnalysis2] "s") := by
  refine ⟨⟨?_, ?_, ?_⟩, ⟨List.filter_sublist _, ?_⟩, ?_, by decide, by decide, by decide,
    by decide⟩
  · exact List.mergeSort_perm _ _
  · intro m
    unfold getChatMessagesBySession
    rw [(List.mergeSort_perm _ _).mem_iff, List.mem_filter]
    simp
  · have hsorted := @List.sorted_mergeSort ChatMessage
      (fun a b : ChatMessage => decide (a.timestamp ≤ b.timestamp))
      (fun a b c h1 h2 => by
        simp only [decide_eq_true_eq] at h1 h2 ⊢
        exact le_trans h1 h2)
      (fun a b => by
        rcases le_total a.timestamp b.timestamp with h | h <;> simp [h])
      (messages.filter (fun m => decide (m.sessionId = some sid)))
    exact hsorted.imp (fun h => by simpa using h)
  · intro a
    unfold getEmotionAnalysesBySession
    rw [List.mem_filter]
    simp
  · intro a
    unfold statsLatestEmotions getEmotionAnalysesBySession latestEmotions
    rw [List.filter_append]
    by_cases hp : a.sessionId = some sid
    · rw [if_pos hp, filter_cons_pos _ _ _ (by simpa using hp)]
      rw [List.filter_nil, List.getLast?_concat]
      rfl
    · rw [if_neg hp, filter_cons_neg _ _ _ (by simpa using hp)]
      rw [List.filter_nil, List.append_nil]
